import Mathlib

/-!
Verification of the money-manager admin page
(`src/app/admin/money-manager/page.js`).

The page is a single React client component.  Its logic is embedded
shallowly below:

* pure helpers (`toNumber`, `getPeriodDateRange`) become pure Lean
  functions;
* the asynchronous handlers (`fetchAll`, `performSaveExpense`,
  `performDeleteExpense`, `handleSaveExpense`, `handleDeleteExpense`,
  the confirmation-dialog click handler and `closeModal`) become
  functions from a UI state plus the relevant server responses to a new
  UI state together with an explicit trace of externally visible
  effects (HTTP requests, redirects, alerts, console output, response
  body reads, state-setter calls, toasts, reload triggers);
* HTTP responses are values: a numeric status plus the already-decoded
  JSON fields the handler inspects.

Render-only data (dialog titles, button labels, toast wording beyond
what the handlers construct) is not modelled; the claims under study
are about control flow, requests and state, not about markup.
-/

/-! ## JavaScript string and number primitives used by the page -/

/-- Whitespace trimming of a character list, as performed by
JavaScript string trimming (used both by the `ToNumber` coercion and by
`String.prototype.trim` in `handleSaveExpense`). -/
def trimCharsBoth (cs : List Char) : List Char :=
  ((cs.dropWhile Char.isWhitespace).reverse.dropWhile Char.isWhitespace).reverse

/-- JavaScript string trim. -/
def jsTrim (s : String) : String :=
  String.mk (trimCharsBoth s.toList)

/-- Value of a digit string, most significant digit first. -/
def digitsToNat (cs : List Char) : Nat :=
  cs.foldl (fun n c => 10 * n + (c.toNat - ('0').toNat)) 0

/-- Parse an unsigned decimal numeral as JavaScript `Number` does on
the part after an optional sign: digits, digits-dot-digits, digits-dot,
or dot-digits.  Returns `none` on any other shape (JavaScript `NaN`).
Exponent and hex forms are not produced by the page's inputs and are
not modelled. -/
def parseUnsignedDecimal (cs : List Char) : Option ℚ :=
  let intPart := cs.takeWhile Char.isDigit
  let rest := cs.dropWhile Char.isDigit
  match rest with
  | [] => if intPart = [] then none else some (digitsToNat intPart : ℚ)
  | '.' :: rest2 =>
      let fracPart := rest2.takeWhile Char.isDigit
      let rest3 := rest2.dropWhile Char.isDigit
      if rest3 ≠ [] then none
      else if intPart = [] ∧ fracPart = [] then none
      else some ((digitsToNat intPart : ℚ) +
            (digitsToNat fracPart : ℚ) / (10 ^ fracPart.length : ℚ))
  | _ => none

/-- JavaScript `Number(string)`: `some q` when the string converts to
the finite number `q`, `none` when it converts to `NaN` or an
infinity. The empty (or all-whitespace) string converts to `0`. -/
def jsStringToNumber (s : String) : Option ℚ :=
  match trimCharsBoth s.toList with
  | [] => some 0
  | '+' :: rest =>
      if rest = "Infinity".toList then none else parseUnsignedDecimal rest
  | '-' :: rest =>
      if rest = "Infinity".toList then none
      else (parseUnsignedDecimal rest).map (fun q => -q)
  | cs =>
      if cs = "Infinity".toList then none else parseUnsignedDecimal cs

/-- `value.replace(/,/g, "")`: remove every comma. -/
def stripCommas (s : String) : String :=
  String.mk (s.toList.filter (fun c => c ≠ ','))

/-- Source `toNumber` (page.js lines 6-9) on a string input: strip
commas, convert with `Number`, and return `0` unless the result is
finite. -/
def toNumber (value : String) : ℚ :=
  match jsStringToNumber (stripCommas value) with
  | some n => n
  | none => 0

/-- JavaScript `a || b` on possibly-absent strings: `a` when it is
present and non-empty (truthy), else `b`.  Used for
`exp?._id || exp?.id` and for error-message fallbacks. -/
def jsOrString (a b : Option String) : Option String :=
  match a with
  | some s => if s = "" then b else some s
  | none => b

/-- Truthiness of a possibly-absent string. -/
def isTruthyStr : Option String → Bool
  | some s => !s.isEmpty
  | none => false

/-! ## Data model -/

/-- An expense record as the page sees it: a JSON object whose fields
may each be absent.  Field values the page only passes through are kept
as strings. -/
structure Expense where
  _id : Option String
  id : Option String
  title : Option String
  description : Option String
  amount : Option String
  expenseDate : Option String
deriving DecidableEq

/-- The controlled create/edit form (`expenseForm` state): every field
is a string. -/
structure ExpenseForm where
  title : String
  description : String
  amount : String
  expenseDate : String
deriving DecidableEq

/-- The argument object of `performSaveExpense`
(`{ isEdit, id, title, description, amount, expenseDate }`). -/
structure SavePayload where
  isEdit : Bool
  id : Option String
  title : String
  description : String
  amount : ℚ
  expenseDate : String
deriving DecidableEq

/-- The payload carried by a staged confirmation: the save payload for
an update, the raw expense record for a delete. -/
inductive PendingPayload where
  | save (p : SavePayload)
  | del (e : Expense)
deriving DecidableEq

/-- The `confirmDialog` state object.  The source also stores a title,
message and button labels; those are render-only and not modelled.  The
`type` string and the `payload` are always written together
(page.js lines 320-327 and 374-381), so they agree in every reachable
state. -/
structure ConfirmDialog where
  type : String
  payload : PendingPayload
deriving DecidableEq

/-- The component state the mutation handlers read and write. -/
structure UIState where
  showExpenseModal : Bool
  editingExpense : Option Expense
  expenseForm : ExpenseForm
  formError : String
  saving : Bool
  confirmDialog : Option ConfirmDialog
deriving DecidableEq

/-! ## closeModal -/

/-- Body of `closeModal` (page.js lines 133-138) with the `saving`
value the closure captured at render time made explicit: React closures
read the state of the render that created them. -/
def closeModalWith (savingCaptured : Bool) (s : UIState) : UIState :=
  if savingCaptured then s
  else { s with showExpenseModal := false, editingExpense := none, formError := "" }

/-- `closeModal` as invoked directly from the UI, where the captured
`saving` is the current one. -/
def closeModal (s : UIState) : UIState :=
  closeModalWith s.saving s

/-! ## Dates and the period resolver -/

/-- A JavaScript `Date` value at the granularity the page uses:
`em` is the number of months since year 0 (`year * 12 + monthIndex`,
so `new Date(y, m, 1)` month-overflow arithmetic is plain integer
arithmetic on `em`), `day` the 1-based day of month, `msOfDay` the
milliseconds since local midnight. -/
structure DateTime where
  em : Int
  day : Nat
  msOfDay : Nat
deriving DecidableEq

/-- Chronological order of two `DateTime`s. -/
def dtLe (a b : DateTime) : Prop :=
  a.em < b.em ∨ (a.em = b.em ∧
    (a.day < b.day ∨ (a.day = b.day ∧ a.msOfDay ≤ b.msOfDay)))

instance (a b : DateTime) : Decidable (dtLe a b) := by
  unfold dtLe; infer_instance

/-- A start/end pair of dates. -/
structure DateRange where
  startDate : DateTime
  endDate : DateTime
deriving DecidableEq

/-- Source `getPeriodDateRange` (page.js lines 28-41): monthly starts
at the first of the current month, 6months at the first of the month
five months earlier, anything else (yearly) at January 1 of the current
year; the start is set to 00:00:00.000 and the end is now with the
time set to 23:59:59.999. -/
def getPeriodDateRange (period : String) (now : DateTime) : DateRange :=
  let startDate :=
    if period = "monthly" then DateTime.mk now.em 1 0
    else if period = "6months" then DateTime.mk (now.em - 5) 1 0
    else DateTime.mk (now.em / 12 * 12) 1 0
  let endDate := DateTime.mk now.em now.day 86399999
  { startDate := startDate, endDate := endDate }

/-! ## Requests, effects and responses -/

/-- One server-aggregated summary bucket; the page stores these
untouched, so the content is left abstract. -/
structure PeriodGroup where
  raw : String
deriving DecidableEq

/-- The HTTP requests the page can issue. -/
inductive ApiRequest where
  | periodReq (period : String)
  | expensesPage (rangeStart rangeEnd : DateTime) (page : Nat) (limit : Nat)
  | createReq (p : SavePayload)
  | updateReq (id : Option String) (p : SavePayload)
  | deleteReq (id : String)
deriving DecidableEq

/-- Externally visible steps a handler performs, in order. -/
inductive Effect where
  | request (r : ApiRequest)
  | readBody
  | alertMsg (msg : String)
  | redirect (url : String)
  | consoleWarn (msg : String)
  | consoleError (msg : String)
  | setLoading (b : Bool)
  | setPeriodGroups (g : List PeriodGroup)
  | setExpenses (l : List Expense)
  | setExpensesDateRange (r : DateRange)
  | toast (msg : String) (ty : String)
  | reload
deriving DecidableEq

/-- `res.ok`: status in the 2xx range. -/
def statusOk (status : Nat) : Bool :=
  decide (200 ≤ status) && decide (status < 300)

/-- Response to the `/api/general-expenses/period` request, as the
fields the handler inspects: `dateRangeStart`/`dateRangeEnd` are the
parsed `dateRange` bounds when present and valid dates (`none` models
an absent field or an invalid date, page.js lines 171-174), `data` is
the group list when the field is an array. -/
structure PeriodResponse where
  status : Nat
  bodyText : String
  dateRangeStart : Option DateTime
  dateRangeEnd : Option DateTime
  data : Option (List PeriodGroup)
deriving DecidableEq

/-- Response to one `/api/general-expenses` page request: `data` is
the record list when that field is an array, `pages` is
`Number(pagination?.pages)` (`none` models `NaN`). -/
structure PageResponse where
  status : Nat
  bodyText : String
  data : Option (List Expense)
  pages : Option Int
deriving DecidableEq

/-- `Number(expJson?.pagination?.pages) || 1`: `NaN` and `0` fall back
to 1. -/
def pagesOf (r : PageResponse) : Int :=
  match r.pages with
  | some n => if n = 0 then 1 else n
  | none => 1

/-- How `fetchAll` terminated. -/
inductive FetchOutcome where
  | success
  | unauthorized
  | errorCaught (msg : String)
  | noApi
deriving DecidableEq

/-- How the pagination loop was left. -/
inductive LoopExit where
  | done
  | unauthorized
  | thrown (msg : String)
deriving DecidableEq

/-- The `while (page <= pages && page <= 50)` pagination loop of
`fetchAll` (page.js lines 187-220).  `server` gives the response the
server returns for each page number.  Produces the effect trace, the
exit kind and the accumulated expense list (`all`). -/
def fetchPagesLoop (server : Nat → PageResponse) (rangeStart rangeEnd : DateTime)
    (page : Nat) (pages : Int) (acc : List Expense) :
    List Effect × LoopExit × List Expense :=
  if h : (page : Int) ≤ pages ∧ page ≤ 50 then
    let r := server page
    let reqEff := Effect.request (ApiRequest.expensesPage rangeStart rangeEnd page 100)
    if r.status = 401 then
      ([reqEff, Effect.alertMsg "Unauthorized: Please login again.",
        Effect.redirect "/admin/login"], LoopExit.unauthorized, acc)
    else if !statusOk r.status then
      ([reqEff, Effect.readBody],
       LoopExit.thrown ("Expenses request failed (" ++ toString r.status ++ "). "
         ++ r.bodyText), acc)
    else
      let list := r.data.getD []
      let acc2 := acc ++ list
      let pages2 := pagesOf r
      if list = [] then
        ([reqEff, Effect.readBody], LoopExit.done, acc2)
      else
        let rest := fetchPagesLoop server rangeStart rangeEnd (page + 1) pages2 acc2
        (reqEff :: Effect.readBody :: rest.1, rest.2.1, rest.2.2)
  else
    ([], LoopExit.done, acc)
termination_by 51 - page
decreasing_by simp_wf; omega

/-- Range resolution inside `fetchAll` (page.js lines 180-182):
`rangeStart = startDate || fallback.startDate` and likewise for the
end — each component falls back independently, and a server-supplied
component is used as-is. -/
def resolveRange (serverStart serverEnd : Option DateTime)
    (period : String) (now : DateTime) : DateRange :=
  let fallback := getPeriodDateRange period now
  { startDate := serverStart.getD fallback.startDate,
    endDate := serverEnd.getD fallback.endDate }

/-- Source `fetchAll` (page.js lines 140-231): warn and clear loading
when no API base URL is configured; otherwise set loading, fetch the
period aggregation, handle 401 / non-ok, store the groups, resolve the
date range (server range per component, local fallback otherwise), run
the pagination loop, then store the list and range and clear loading —
with thrown errors caught, logged, toasted, and loading cleared. -/
def fetchAll (apiBaseUrl : Option String) (apiPeriod : String) (now : DateTime)
    (periodResp : PeriodResponse) (server : Nat → PageResponse) :
    List Effect × FetchOutcome :=
  match apiBaseUrl with
  | none =>
      ([Effect.consoleWarn "API base URL is not set. Cannot fetch money manager data.",
        Effect.setLoading false], FetchOutcome.noApi)
  | some _ =>
      let pre := [Effect.setLoading true,
                  Effect.request (ApiRequest.periodReq apiPeriod)]
      if periodResp.status = 401 then
        (pre ++ [Effect.alertMsg "Unauthorized: Please login again.",
                 Effect.redirect "/admin/login"], FetchOutcome.unauthorized)
      else if !statusOk periodResp.status then
        let msg := "Period request failed (" ++ toString periodResp.status ++ "). "
          ++ periodResp.bodyText
        (pre ++ [Effect.readBody,
                 Effect.consoleError ("Money manager load failed: " ++ msg),
                 Effect.toast ("Failed to load money manager data: " ++ msg) "error",
                 Effect.setLoading false], FetchOutcome.errorCaught msg)
      else
        let range := resolveRange periodResp.dateRangeStart periodResp.dateRangeEnd
          apiPeriod now
        let rangeStart := range.startDate
        let rangeEnd := range.endDate
        let loopRes := fetchPagesLoop server rangeStart rangeEnd 1 1 []
        let pre2 := pre ++ [Effect.readBody,
                            Effect.setPeriodGroups (periodResp.data.getD [])]
        match loopRes.2.1 with
        | LoopExit.unauthorized => (pre2 ++ loopRes.1, FetchOutcome.unauthorized)
        | LoopExit.thrown msg =>
            (pre2 ++ loopRes.1 ++
             [Effect.consoleError ("Money manager load failed: " ++ msg),
              Effect.toast ("Failed to load money manager data: " ++ msg) "error",
              Effect.setLoading false], FetchOutcome.errorCaught msg)
        | LoopExit.done =>
            (pre2 ++ loopRes.1 ++
             [Effect.setExpenses loopRes.2.2,
              Effect.setExpensesDateRange ⟨rangeStart, rangeEnd⟩,
              Effect.setLoading false], FetchOutcome.success)

/-! ## Trace observations -/

/-- The page-number/limit pairs of the expense-page requests in a
trace, in order. -/
def pageRequests (effs : List Effect) : List (Nat × Nat) :=
  effs.filterMap fun e =>
    match e with
    | Effect.request (ApiRequest.expensesPage _ _ p l) => some (p, l)
    | _ => none

/-- All requests in a trace, in order. -/
def requestsOf (effs : List Effect) : List ApiRequest :=
  effs.filterMap fun e =>
    match e with
    | Effect.request r => some r
    | _ => none

/-- Number of login redirects in a trace. -/
def countRedirects (effs : List Effect) : Nat :=
  (effs.filter fun e =>
    match e with
    | Effect.redirect _ => true
    | _ => false).length

/-- Number of response-body reads in a trace. -/
def countReadBody (effs : List Effect) : Nat :=
  (effs.filter fun e =>
    match e with
    | Effect.readBody => true
    | _ => false).length

/-- Number of full-reload triggers in a trace. -/
def countReloads (effs : List Effect) : Nat :=
  (effs.filter fun e =>
    match e with
    | Effect.reload => true
    | _ => false).length

/-- Number of console log lines (warn or error) in a trace. -/
def countConsole (effs : List Effect) : Nat :=
  (effs.filter fun e =>
    match e with
    | Effect.consoleWarn _ => true
    | Effect.consoleError _ => true
    | _ => false).length

/-- Value of the `loading` flag after a trace runs, starting from
`b`. -/
def loadingAfter (effs : List Effect) (b : Bool) : Bool :=
  effs.foldl (fun acc e =>
    match e with
    | Effect.setLoading v => v
    | _ => acc) b

/-! ## Mutation handlers -/

/-- Response to a create/update/delete request: the status plus the
`message` field of the JSON error body (`none` when the body is not
JSON or has no such field). -/
structure MutResponse where
  status : Nat
  message : Option String
deriving DecidableEq

/-- How a mutation handler terminated. `failed` marks an error that
was thrown and caught inside the handler; `blocked` marks a guarded
early return that did nothing. -/
inductive MutOutcome where
  | ok
  | unauthorized
  | failed (msg : String)
  | noApi
  | noId
  | blocked
  | staged
deriving DecidableEq

/-- JavaScript `a || b` for a possibly-absent string `a` and a plain
default `b` (used for `json?.message || generic`). -/
def jsOrDefault (a : Option String) (b : String) : String :=
  match a with
  | some m => if m = "" then b else m
  | none => b

/-- Source `performSaveExpense` (page.js lines 239-290).  The captured
`saving` flag inside the `closeModal()` call is the value at the render
that created the handler, i.e. the entry state's. -/
def performSaveExpense (apiBaseUrl : Option String) (resp : MutResponse)
    (p : SavePayload) (s : UIState) : UIState × List Effect × MutOutcome :=
  match apiBaseUrl with
  | none =>
      ({ s with formError := "API base URL is not configured." }, [], MutOutcome.noApi)
  | some _ =>
      let s1 := { s with saving := true }
      let req := if p.isEdit then ApiRequest.updateReq p.id p else ApiRequest.createReq p
      if resp.status = 401 then
        ({ s1 with saving := false },
         [Effect.request req, Effect.alertMsg "Unauthorized: Please login again.",
          Effect.redirect "/admin/login"], MutOutcome.unauthorized)
      else if !statusOk resp.status then
        let msg := jsOrDefault resp.message ("Request failed (" ++ toString resp.status ++ ")")
        ({ s1 with saving := false, formError := msg },
         [Effect.request req, Effect.readBody,
          Effect.consoleError ("Save expense failed: " ++ msg),
          Effect.toast msg "error"], MutOutcome.failed msg)
      else
        let s2 := closeModalWith s.saving { s1 with confirmDialog := none }
        ({ s2 with saving := false },
         [Effect.request req, Effect.reload,
          Effect.toast (if p.isEdit then "Expense updated successfully."
            else "Expense created successfully.") "success"], MutOutcome.ok)

/-- Source `performDeleteExpense` (page.js lines 334-370). -/
def performDeleteExpense (apiBaseUrl : Option String) (resp : MutResponse)
    (exp : Expense) (s : UIState) : UIState × List Effect × MutOutcome :=
  match jsOrString exp._id exp.id with
  | none => (s, [], MutOutcome.noId)
  | some i =>
      if i = "" then (s, [], MutOutcome.noId)
      else
        match apiBaseUrl with
        | none => (s, [Effect.toast "API base URL is not configured." "error"],
                   MutOutcome.noApi)
        | some _ =>
            let s1 := { s with saving := true }
            if resp.status = 401 then
              ({ s1 with saving := false },
               [Effect.request (ApiRequest.deleteReq i),
                Effect.alertMsg "Unauthorized: Please login again.",
                Effect.redirect "/admin/login"], MutOutcome.unauthorized)
            else if !statusOk resp.status then
              let msg := jsOrDefault resp.message
                ("Delete failed (" ++ toString resp.status ++ ")")
              ({ s1 with saving := false },
               [Effect.request (ApiRequest.deleteReq i), Effect.readBody,
                Effect.consoleError ("Delete expense failed: " ++ msg),
                Effect.toast ("Failed to delete expense: " ++ msg) "error"],
               MutOutcome.failed msg)
            else
              ({ s1 with confirmDialog := none, saving := false },
               [Effect.request (ApiRequest.deleteReq i), Effect.reload,
                Effect.toast "Expense deleted successfully." "success"], MutOutcome.ok)

/-- Source `handleSaveExpense` (page.js lines 292-332): reset the form
error, validate (`toNumber` always yields a finite value, so the
source's `!Number.isFinite(amount) || amount <= 0` reduces to
`amount <= 0`), then stage a confirmation for an edit or call
`performSaveExpense` directly for a create. -/
def handleSaveExpense (apiBaseUrl : Option String) (resp : MutResponse)
    (s : UIState) : UIState × List Effect × MutOutcome :=
  let s0 := { s with formError := "" }
  let title := jsTrim s.expenseForm.title
  let description := jsTrim s.expenseForm.description
  let amount := toNumber s.expenseForm.amount
  let expenseDate := s.expenseForm.expenseDate
  if title = "" then
    ({ s0 with formError := "Title is required." }, [], MutOutcome.blocked)
  else if expenseDate = "" then
    ({ s0 with formError := "Expense date is required." }, [], MutOutcome.blocked)
  else if amount ≤ 0 then
    ({ s0 with formError := "Amount must be a positive number." }, [], MutOutcome.blocked)
  else
    let idOpt := jsOrString (s.editingExpense.bind (fun e => e._id))
      (s.editingExpense.bind (fun e => e.id))
    let isEdit := isTruthyStr idOpt
    let payload : SavePayload := ⟨isEdit, idOpt, title, description, amount, expenseDate⟩
    if isEdit then
      ({ s0 with confirmDialog := some ⟨"update", PendingPayload.save payload⟩ },
       [], MutOutcome.staged)
    else
      performSaveExpense apiBaseUrl resp payload s0

/-- Source `handleDeleteExpense` (page.js lines 372-382): stage a
delete confirmation carrying the record itself; no network. -/
def handleDeleteExpense (exp : Option Expense) (s : UIState) : UIState × List Effect :=
  match exp with
  | none => (s, [])
  | some e =>
      ({ s with confirmDialog := some ⟨"delete", PendingPayload.del e⟩ }, [])

/-- The confirmation dialog's confirm button (page.js lines 863-882):
rendered only while a dialog is staged, disabled while `saving`;
dispatches on the staged `type` to the matching perform function.  The
`type` string and payload variant are always written together, so the
cross cases are unreachable and modelled as no-ops. -/
def confirmClick (apiBaseUrl : Option String) (saveResp delResp : MutResponse)
    (s : UIState) : UIState × List Effect × MutOutcome :=
  match s.confirmDialog with
  | none => (s, [], MutOutcome.blocked)
  | some cd =>
      if s.saving then (s, [], MutOutcome.blocked)
      else if cd.type = "update" then
        match cd.payload with
        | PendingPayload.save p => performSaveExpense apiBaseUrl saveResp p s
        | PendingPayload.del _ => (s, [], MutOutcome.blocked)
      else if cd.type = "delete" then
        match cd.payload with
        | PendingPayload.del e => performDeleteExpense apiBaseUrl delResp e s
        | PendingPayload.save _ => (s, [], MutOutcome.blocked)
      else (s, [], MutOutcome.blocked)

/-! ## The UI event system -/

/-- The user-driven events of the page that run handler code.  Events
carry the server responses their handler would receive; modal-opening
events carry the form contents the source builds (date formatting of a
record is presentation and is carried as data). -/
inductive UIEvent where
  | load (apiPeriod : String) (now : DateTime) (periodResp : PeriodResponse)
      (server : Nat → PageResponse)
  | submitForm (resp : MutResponse)
  | confirmClick (saveResp delResp : MutResponse)
  | cancelClick
  | deleteClick (exp : Option Expense)
  | openCreate (form : ExpenseForm)
  | openEdit (exp : Expense) (form : ExpenseForm)
  | closeClick

/-- One step of the page: dispatch an event to its handler, yielding
the next state and the effect trace.  The cancel button of the dialog
is disabled while `saving` (page.js lines 855-862). -/
def step (apiBaseUrl : Option String) (ev : UIEvent) (s : UIState) :
    UIState × List Effect :=
  match ev with
  | UIEvent.load apiPeriod now periodResp server =>
      (s, (fetchAll apiBaseUrl apiPeriod now periodResp server).1)
  | UIEvent.submitForm resp =>
      let r := handleSaveExpense apiBaseUrl resp s
      (r.1, r.2.1)
  | UIEvent.confirmClick saveResp delResp =>
      let r := confirmClick apiBaseUrl saveResp delResp s
      (r.1, r.2.1)
  | UIEvent.cancelClick =>
      if s.saving then (s, []) else ({ s with confirmDialog := none }, [])
  | UIEvent.deleteClick exp => handleDeleteExpense exp s
  | UIEvent.openCreate form =>
      let s2 := { s with editingExpense := none, expenseForm := form, formError := "", showExpenseModal := true }
      (s2, [])
  | UIEvent.openEdit exp form =>
      let s2 := { s with editingExpense := some exp, expenseForm := form, formError := "", showExpenseModal := true }
      (s2, [])
  | UIEvent.closeClick => (closeModal s, [])

/-- HTTP method of a request. -/
def ApiRequest.method : ApiRequest → String
  | ApiRequest.periodReq _ => "GET"
  | ApiRequest.expensesPage _ _ _ _ => "GET"
  | ApiRequest.createReq _ => "POST"
  | ApiRequest.updateReq _ _ => "PUT"
  | ApiRequest.deleteReq _ => "DELETE"

/-- Well-formedness of the staged dialog: the `type` tag matches the
payload variant and a staged save payload has `isEdit` set — exactly
what the two writers establish (page.js lines 320-327 stage
`type: "update"` with `isEdit` known true; lines 374-381 stage
`type: "delete"` with the record). -/
def StateWF (s : UIState) : Prop :=
  ∀ cd, s.confirmDialog = some cd →
    (∀ p, cd.payload = PendingPayload.save p → cd.type = "update" ∧ p.isEdit = true) ∧
    (∀ e, cd.payload = PendingPayload.del e → cd.type = "delete")

/-! ## Sample values used to instantiate the theorems -/

/-- A filled-in create/edit form. -/
def sampleForm : ExpenseForm := ⟨"Rent", "office", "1,234", "2024-02-01"⟩

/-- An idle state with a filled-in form. -/
def sampleState : UIState := ⟨true, none, sampleForm, "", false, none⟩

/-- A stored expense record. -/
def sampleExpense : Expense :=
  ⟨some "abc123", none, some "Rent", none, some "500", some "2024-02-01"⟩

/-- February 15, 2024, 01:00 local time (months since year 0:
2024 * 12 + 1). -/
def sampleDT : DateTime := ⟨24289, 15, 3600000⟩

/-- A successful expense-page response. -/
def okPage (l : List Expense) (pageCount : Int) : PageResponse :=
  ⟨200, "", some l, some pageCount⟩

/-- An unauthorized mutation response. -/
def resp401 : MutResponse := ⟨401, none⟩

/-- A successful mutation response. -/
def respOkMut : MutResponse := ⟨200, none⟩

/-- An unauthorized period response. -/
def period401 : PeriodResponse := ⟨401, "", none, none, none⟩

/-- A successful period response carrying no date range. -/
def periodOkNoRange : PeriodResponse := ⟨200, "", none, none, some []⟩

/-- The payload staged by an edit submission of `sampleExpense`
with `sampleForm`. -/
def samplePayload : SavePayload :=
  ⟨true, some "abc123", "Rent", "office", 1234, "2024-02-01"⟩

/-- A state with a staged delete confirmation for `sampleExpense`. -/
def stagedDeleteState : UIState :=
  { sampleState with confirmDialog := some ⟨"delete", PendingPayload.del sampleExpense⟩ }

/-- A state whose form has an empty title. -/
def emptyTitleState : UIState :=
  { sampleState with expenseForm := ⟨"", "", "5", "2024-01-01"⟩ }

/-! ## Claims C9 and C10 -/

/-- C9: `toNumber` maps the string "1,234" to 1234 (commas stripped
before conversion), and maps any input whose comma-stripped form is not
numeric to 0. -/
theorem toNumber_strips_commas_and_defaults_zero :
    toNumber "1,234" = 1234 ∧
    ∀ s : String, jsStringToNumber (stripCommas s) = none → toNumber s = 0 := by
  constructor
  · decide
  · intro s h
    simp [toNumber, h]

/-- Witness for C9: the non-numeric input "abc" maps to 0. -/
theorem toNumber_strips_commas_and_defaults_zero_witness :
    toNumber "abc" = 0 :=
  toNumber_strips_commas_and_defaults_zero.2 "abc" (by decide)

/-- C10: while `saving` is true, `closeModal` is a no-op: the modal
stays open and the editing-expense and form-error state are unchanged. -/
theorem closeModal_noop_while_saving (s : UIState) (h : s.saving = true) :
    closeModal s = s := by
  simp [closeModal, closeModalWith, h]

/-- Witness for C10: a concrete state with `saving` set is returned
unchanged by `closeModal`. -/
theorem closeModal_noop_while_saving_witness :
    closeModal ⟨true, none, ⟨"t", "d", "5", "2024-01-01"⟩, "", true, none⟩ =
      ⟨true, none, ⟨"t", "d", "5", "2024-01-01"⟩, "", true, none⟩ :=
  closeModal_noop_while_saving _ rfl

/-! ## Pagination-loop lemmas -/

/-- Every effect the pagination loop emits is a page request with
limit 100, a body read, the unauthorized alert, or the login
redirect. -/
theorem fetchPagesLoop_effect_cases (server : Nat → PageResponse) (rs re : DateTime) :
    ∀ fuel page pages acc, 51 - page ≤ fuel →
      ∀ e ∈ (fetchPagesLoop server rs re page pages acc).1,
        (∃ p, e = Effect.request (ApiRequest.expensesPage rs re p 100)) ∨
        e = Effect.readBody ∨
        e = Effect.alertMsg "Unauthorized: Please login again." ∨
        e = Effect.redirect "/admin/login" := by
  intro fuel
  induction fuel with
  | zero =>
      intro page pages acc h
      rw [fetchPagesLoop.eq_def]
      split
      · omega
      · simp
  | succ n ih =>
      intro page pages acc h e
      rw [fetchPagesLoop.eq_def]
      split
      · dsimp only
        split
        · intro he
          simp only [List.mem_cons, List.mem_singleton] at he
          rcases he with he | he | he | he
          · exact Or.inl ⟨page, he⟩
          · exact Or.inr (Or.inr (Or.inl he))
          · exact Or.inr (Or.inr (Or.inr he))
          · cases he
        · split
          · intro he
            simp only [List.mem_cons, List.mem_singleton] at he
            rcases he with he | he | he
            · exact Or.inl ⟨page, he⟩
            · exact Or.inr (Or.inl he)
            · cases he
          · split
            · intro he
              simp only [List.mem_cons, List.mem_singleton] at he
              rcases he with he | he | he
              · exact Or.inl ⟨page, he⟩
              · exact Or.inr (Or.inl he)
              · cases he
            · intro he
              simp only [List.mem_cons] at he
              rcases he with he | he | he
              · exact Or.inl ⟨page, he⟩
              · exact Or.inr (Or.inl he)
              · exact ih (page + 1) _ _ (by omega) e he
      · intro he
        simp at he

/-- The loop issues at most `fuel` page requests when `51 - page ≤
fuel`; hence never more than 50 from page 1. -/
theorem fetchPagesLoop_request_bound (server : Nat → PageResponse) (rs re : DateTime) :
    ∀ fuel page pages acc, 51 - page ≤ fuel →
      (pageRequests (fetchPagesLoop server rs re page pages acc).1).length ≤ fuel := by
  intro fuel
  induction fuel with
  | zero =>
      intro page pages acc h
      rw [fetchPagesLoop.eq_def]
      split
      · omega
      · simp [pageRequests]
  | succ n ih =>
      intro page pages acc h
      rw [fetchPagesLoop.eq_def]
      split
      · dsimp only
        split
        · simp [pageRequests]
        · split
          · simp [pageRequests]
          · split
            · simp [pageRequests]
            · have hr := ih (page + 1) (pagesOf (server page))
                ((acc ++ (server page).data.getD [])) (by omega)
              simp only [pageRequests, List.filterMap_cons] at hr ⊢
              simpa using hr
      · simp [pageRequests]

/-- One unfolding of the loop when the server answers 401: the alert
and the redirect, and nothing further. -/
theorem fetchPagesLoop_unauthorized_step (server : Nat → PageResponse)
    (rs re : DateTime) (k : Nat) (pages : Int) (acc : List Expense)
    (hcond : (k : Int) ≤ pages ∧ k ≤ 50) (h401 : (server k).status = 401) :
    fetchPagesLoop server rs re k pages acc =
      ([Effect.request (ApiRequest.expensesPage rs re k 100),
        Effect.alertMsg "Unauthorized: Please login again.",
        Effect.redirect "/admin/login"], LoopExit.unauthorized, acc) := by
  rw [fetchPagesLoop.eq_def, dif_pos hcond]
  dsimp only
  rw [h401, if_pos rfl]

/-- Complete nominal run: all pages `k..P` succeed, are non-empty and
consistently report `P` pages; the loop requests exactly pages `k..P`
in order, exits normally and appends the pages' records in order. -/
theorem fetchPagesLoop_complete (server : Nat → PageResponse) (rs re : DateTime)
    (P : Nat) (d : Nat → List Expense) (hP1 : 1 ≤ P) (hP50 : P ≤ 50)
    (hsrv : ∀ p, 1 ≤ p → p ≤ P →
      (server p).status = 200 ∧ (server p).data = some (d p) ∧
      (server p).pages = some (P : Int) ∧ d p ≠ []) :
    ∀ n k acc (pagesArg : Int), k + n = P → 1 ≤ k → (k : Int) ≤ pagesArg →
      fetchPagesLoop server rs re k pagesArg acc =
        ((List.range' k (n+1)).flatMap (fun p =>
           [Effect.request (ApiRequest.expensesPage rs re p 100), Effect.readBody]),
         LoopExit.done,
         acc ++ (List.range' k (n+1)).flatMap d) := by
  intro n
  induction n with
  | zero =>
      intro k acc pagesArg hk hk1 hpa
      obtain ⟨hst, hdata, hpages, hne⟩ := hsrv k (by omega) (by omega)
      rw [fetchPagesLoop.eq_def]
      rw [dif_pos ⟨hpa, by omega⟩]
      dsimp only
      simp only [pagesOf]
      rw [hst, hdata, hpages]
      rw [if_neg (by decide : ¬ (200 = 401))]
      rw [if_neg (by decide : ¬ ((!statusOk 200) = true))]
      dsimp only [Option.getD]
      rw [if_neg hne]
      rw [if_neg (by omega : ¬ ((P : Int) = 0))]
      rw [fetchPagesLoop.eq_def]
      rw [dif_neg (by push_cast; omega)]
      simp
  | succ n ih =>
      intro k acc pagesArg hk hk1 hpa
      obtain ⟨hst, hdata, hpages, hne⟩ := hsrv k (by omega) (by omega)
      rw [fetchPagesLoop.eq_def]
      rw [dif_pos ⟨hpa, by omega⟩]
      dsimp only
      simp only [pagesOf]
      rw [hst, hdata, hpages]
      rw [if_neg (by decide : ¬ (200 = 401))]
      rw [if_neg (by decide : ¬ ((!statusOk 200) = true))]
      dsimp only [Option.getD]
      rw [if_neg hne]
      rw [if_neg (by omega : ¬ ((P : Int) = 0))]
      have hrec := ih (k+1) (acc ++ d k) (P : Int) (by omega) (by omega)
        (by push_cast; omega)
      rw [hrec]
      rw [List.range'_succ k (n+1) 1]
      simp

/-- Early stop: pages `k..k+n-1` succeed non-empty and report `P`
pages, and page `k+n` succeeds with an empty list; the loop requests
exactly pages `k..k+n`, exits normally and appends only the non-empty
pages' records. -/
theorem fetchPagesLoop_empty_page_stops (server : Nat → PageResponse)
    (rs re : DateTime) (P : Nat) (d : Nat → List Expense) :
    ∀ (n k : Nat) (acc : List Expense) (pagesArg : Int),
      1 ≤ k → k + n ≤ 50 → (k : Int) ≤ pagesArg →
      (n = 0 ∨ ((k : Int) + n ≤ P)) →
      (∀ p, k ≤ p → p < k + n →
        (server p).status = 200 ∧ (server p).data = some (d p) ∧
        (server p).pages = some (P : Int) ∧ d p ≠ []) →
      (server (k + n)).status = 200 → (server (k + n)).data = some [] →
      fetchPagesLoop server rs re k pagesArg acc =
        ((List.range' k (n+1)).flatMap (fun p =>
           [Effect.request (ApiRequest.expensesPage rs re p 100), Effect.readBody]),
         LoopExit.done,
         acc ++ (List.range' k n).flatMap d) := by
  intro n
  induction n with
  | zero =>
      intro k acc pagesArg hk1 hk50 hpa _ _ hst hdata
      rw [fetchPagesLoop.eq_def]
      rw [dif_pos ⟨hpa, by omega⟩]
      dsimp only
      rw [(by simpa using hst : (server k).status = 200)]
      rw [if_neg (by decide : ¬ (200 = 401))]
      rw [if_neg (by decide : ¬ ((!statusOk 200) = true))]
      rw [(by simpa using hdata : (server k).data = some [])]
      dsimp only [Option.getD]
      rw [if_pos rfl]
      simp
  | succ n ih =>
      intro k acc pagesArg hk1 hk50 hpa hnP hsrv hst hdata
      obtain ⟨hst1, hdata1, hpages1, hne1⟩ := hsrv k (by omega) (by omega)
      rw [fetchPagesLoop.eq_def]
      rw [dif_pos ⟨hpa, by omega⟩]
      dsimp only
      simp only [pagesOf]
      rw [hst1, hdata1, hpages1]
      rw [if_neg (by decide : ¬ (200 = 401))]
      rw [if_neg (by decide : ¬ ((!statusOk 200) = true))]
      dsimp only [Option.getD]
      rw [if_neg hne1]
      have hP0 : ¬ ((P : Int) = 0) := by
        rcases hnP with h | h
        · omega
        · push_cast at h; omega
      have hk1P : ((k : Nat) + 1 : Int) ≤ (P : Int) := by
        rcases hnP with h | h
        · omega
        · push_cast at h ⊢; omega
      rw [if_neg hP0]
      have hrec := ih (k+1) (acc ++ d k) (P : Int) (by omega) (by omega)
        (by push_cast at hk1P ⊢; omega)
        (Or.inr (by push_cast at hk1P ⊢; omega))
        (fun p hp1 hp2 => hsrv p (by omega) (by omega))
        (by rw [(by omega : k + 1 + n = k + (n+1))]; exact hst)
        (by rw [(by omega : k + 1 + n = k + (n+1))]; exact hdata)
      rw [hrec]
      rw [List.range'_succ k (n+1) 1, List.range'_succ k n 1]
      simp

/-! ## Trace-observation lemmas -/

theorem pageRequests_append (l1 l2 : List Effect) :
    pageRequests (l1 ++ l2) = pageRequests l1 ++ pageRequests l2 := by
  simp [pageRequests]

theorem requestsOf_append (l1 l2 : List Effect) :
    requestsOf (l1 ++ l2) = requestsOf l1 ++ requestsOf l2 := by
  simp [requestsOf]

/-- Page requests of a per-page trace. -/
theorem pageRequests_flatMap (rs re : DateTime) (l : List Nat) :
    pageRequests (l.flatMap (fun p =>
        [Effect.request (ApiRequest.expensesPage rs re p 100), Effect.readBody])) =
      l.map (fun p => (p, 100)) := by
  induction l with
  | nil => rfl
  | cons a t ih =>
      simp only [List.flatMap_cons, pageRequests, List.filterMap_append] at ih ⊢
      simp [ih]

theorem loadingAfter_append (l1 l2 : List Effect) (b : Bool) :
    loadingAfter (l1 ++ l2) b = loadingAfter l2 (loadingAfter l1 b) := by
  simp [loadingAfter, List.foldl_append]

/-- A trace without `setLoading` leaves the loading flag unchanged. -/
theorem loadingAfter_of_no_set (effs : List Effect) (b : Bool)
    (h : ∀ e ∈ effs, ∀ v, e ≠ Effect.setLoading v) :
    loadingAfter effs b = b := by
  induction effs with
  | nil => rfl
  | cons e t ih =>
      have he := h e (by simp)
      have ht : ∀ x ∈ t, ∀ v, x ≠ Effect.setLoading v :=
        fun x hx => h x (by simp [hx])
      cases e with
      | setLoading v => exact absurd rfl (he v)
      | request r => exact ih ht
      | readBody => exact ih ht
      | alertMsg m => exact ih ht
      | redirect u => exact ih ht
      | consoleWarn m => exact ih ht
      | consoleError m => exact ih ht
      | setPeriodGroups g => exact ih ht
      | setExpenses l => exact ih ht
      | setExpensesDateRange r => exact ih ht
      | toast m ty => exact ih ht
      | reload => exact ih ht

/-- The pagination loop never touches the loading flag. -/
theorem fetchPagesLoop_loadingAfter (server : Nat → PageResponse) (rs re : DateTime)
    (page : Nat) (pages : Int) (acc : List Expense) (b : Bool) :
    loadingAfter (fetchPagesLoop server rs re page pages acc).1 b = b := by
  apply loadingAfter_of_no_set
  intro e he v
  have := fetchPagesLoop_effect_cases server rs re (51 - page) page pages acc
    (by omega) e he
  rcases this with ⟨p, hp⟩ | h | h | h
  · simp [hp]
  · simp [h]
  · simp [h]
  · simp [h]

/-- Whatever the server answers, `fetchAll` never issues more than 50
page requests. -/
theorem fetchAll_pageRequests_le_50 (apiBaseUrl : Option String) (apiPeriod : String)
    (now : DateTime) (periodResp : PeriodResponse) (server : Nat → PageResponse) :
    (pageRequests (fetchAll apiBaseUrl apiPeriod now periodResp server).1).length ≤ 50 := by
  match apiBaseUrl with
  | none => simp [fetchAll, pageRequests]
  | some base =>
      simp only [fetchAll]
      by_cases h401 : periodResp.status = 401
      · rw [if_pos h401]
        simp [pageRequests]
      · rw [if_neg h401]
        by_cases hok : statusOk periodResp.status
        · rw [if_neg (by simp [hok])]
          have hb := fetchPagesLoop_request_bound server
            (resolveRange periodResp.dateRangeStart periodResp.dateRangeEnd apiPeriod now).startDate
            (resolveRange periodResp.dateRangeStart periodResp.dateRangeEnd apiPeriod now).endDate
            50 1 1 [] (by omega)
          rcases hexit : (fetchPagesLoop server
            (resolveRange periodResp.dateRangeStart periodResp.dateRangeEnd apiPeriod now).startDate
            (resolveRange periodResp.dateRangeStart periodResp.dateRangeEnd apiPeriod now).endDate
            1 1 []).2.1 with _ | _ | msg <;>
            simp only [hexit] <;>
            simp [pageRequests_append, pageRequests] <;>
            simpa [pageRequests] using hb
        · rw [if_pos (by simp [statusOk] at hok ⊢; omega)]
          simp [pageRequests]

/-! ## Claim C1 -/

/-- C1: against a server reporting `P` pages (`1 ≤ P ≤ 50`) that are
all non-empty and consistent, `fetchAll` issues exactly the page
requests `1..P`, each with limit 100, succeeds, and stores exactly the
concatenation of the pages in server order (whose length is the total
record count `N`); against any server at all it never issues more than
50 page requests. -/
theorem fetchAll_pagination_aggregation
    (base apiPeriod : String) (now : DateTime) (periodResp : PeriodResponse)
    (server : Nat → PageResponse) (P : Nat) (d : Nat → List Expense)
    (hp401 : periodResp.status ≠ 401) (hpok : statusOk periodResp.status = true)
    (hP1 : 1 ≤ P) (hP50 : P ≤ 50)
    (hsrv : ∀ p, 1 ≤ p → p ≤ P →
      (server p).status = 200 ∧ (server p).data = some (d p) ∧
      (server p).pages = some (P : Int) ∧ d p ≠ []) :
    pageRequests (fetchAll (some base) apiPeriod now periodResp server).1 =
      (List.range' 1 P).map (fun p => (p, 100)) ∧
    (fetchAll (some base) apiPeriod now periodResp server).2 = FetchOutcome.success ∧
    Effect.setExpenses ((List.range' 1 P).flatMap d) ∈
      (fetchAll (some base) apiPeriod now periodResp server).1 ∧
    ((List.range' 1 P).flatMap d).length =
      ((List.range' 1 P).map (fun p => (d p).length)).sum ∧
    (∀ (pr2 : PeriodResponse) (server2 : Nat → PageResponse),
      (pageRequests (fetchAll (some base) apiPeriod now pr2 server2).1).length ≤ 50) ∧
    (∀ (server2 : Nat → PageResponse) (rs re : DateTime) (k : Nat) (pages2 : Int)
        (acc : List Expense), 1 ≤ k → (k : Int) ≤ pages2 → k ≤ 50 →
      (server2 k).status = 200 → (server2 k).data = some [] →
      fetchPagesLoop server2 rs re k pages2 acc =
        ([Effect.request (ApiRequest.expensesPage rs re k 100), Effect.readBody],
         LoopExit.done, acc)) := by
  have hloop := fetchPagesLoop_complete server
    (resolveRange periodResp.dateRangeStart periodResp.dateRangeEnd apiPeriod now).startDate
    (resolveRange periodResp.dateRangeStart periodResp.dateRangeEnd apiPeriod now).endDate
    P d hP1 hP50 hsrv (P - 1) 1 [] 1 (by omega) (by omega) (by norm_num)
  rw [(by omega : P - 1 + 1 = P)] at hloop
  refine ⟨?_, ?_, ?_, ?_, fun pr2 server2 => fetchAll_pageRequests_le_50 _ _ _ _ _, ?_⟩
  · simp only [fetchAll]
    rw [if_neg hp401, if_neg (by simp [hpok])]
    rw [hloop]
    have hter := pageRequests_flatMap
      (resolveRange periodResp.dateRangeStart periodResp.dateRangeEnd apiPeriod now).startDate
      (resolveRange periodResp.dateRangeStart periodResp.dateRangeEnd apiPeriod now).endDate
      (List.range' 1 P)
    simp only [pageRequests] at hter
    simp [pageRequests_append, pageRequests, hter]
  · simp only [fetchAll]
    rw [if_neg hp401, if_neg (by simp [hpok])]
    rw [hloop]
  · simp only [fetchAll]
    rw [if_neg hp401, if_neg (by simp [hpok])]
    rw [hloop]
    simp
  · simp [List.length_flatMap, Function.comp_def]
  · intro server2 rs re k pages2 acc hk1 hkp hk50 hst hdata
    have h := fetchPagesLoop_empty_page_stops server2 rs re 0 (fun _ => []) 0 k acc
      pages2 (by omega) (by omega) hkp (Or.inl rfl)
      (fun p hp1 hp2 => absurd hp2 (by omega))
      (by simpa using hst) (by simpa using hdata)
    simpa using h

/-- Witness for C1: a two-page server with one record per page gives
exactly the two page requests and succeeds. -/
theorem fetchAll_pagination_aggregation_witness :
    pageRequests (fetchAll (some "u") "monthly" sampleDT periodOkNoRange
        (fun _ => okPage [sampleExpense] 2)).1 = [(1, 100), (2, 100)] ∧
    (fetchAll (some "u") "monthly" sampleDT periodOkNoRange
        (fun _ => okPage [sampleExpense] 2)).2 = FetchOutcome.success := by
  have h := fetchAll_pagination_aggregation "u" "monthly" sampleDT periodOkNoRange
    (fun _ => okPage [sampleExpense] 2) 2 (fun _ => [sampleExpense])
    (by decide) (by decide) (by decide) (by decide)
    (fun p h1 h2 => ⟨rfl, rfl, rfl, List.cons_ne_nil sampleExpense []⟩)
  refine ⟨?_, h.2.1⟩
  rw [h.1]
  decide

/-! ## Claim C2 -/

/-- C2 counterexample: on a 401 from the period request, `fetchAll`
returns with the loading flag still true (the claim says every
termination path clears it). -/
theorem fetchAll_401_leaves_loading_set :
    loadingAfter (fetchAll (some "u") "monthly" sampleDT period401
        (fun _ => okPage [] 1)).1 false = true := by
  rfl

/-- C2 amended: the loading flag is false on return for the success,
caught-error and missing-API-base-URL paths, but remains true on the
401 early-return paths, where the page navigates to the login screen
instead. -/
theorem fetchAll_clears_loading_except_on_401
    (apiBaseUrl : Option String) (apiPeriod : String) (now : DateTime)
    (periodResp : PeriodResponse) (server : Nat → PageResponse) (b : Bool) :
    ((fetchAll apiBaseUrl apiPeriod now periodResp server).2 ≠ FetchOutcome.unauthorized →
      loadingAfter (fetchAll apiBaseUrl apiPeriod now periodResp server).1 b = false) ∧
    ((fetchAll apiBaseUrl apiPeriod now periodResp server).2 = FetchOutcome.unauthorized →
      loadingAfter (fetchAll apiBaseUrl apiPeriod now periodResp server).1 b = true) := by
  match apiBaseUrl with
  | none =>
      constructor
      · intro _
        simp [fetchAll, loadingAfter]
      · intro h
        simp [fetchAll] at h
  | some base =>
      simp only [fetchAll]
      by_cases h401 : periodResp.status = 401
      · rw [if_pos h401]
        constructor
        · intro h
          simp at h
        · intro _
          simp [loadingAfter]
      · rw [if_neg h401]
        by_cases hok : statusOk periodResp.status
        · rw [if_neg (by simp [hok])]
          rcases hexit : (fetchPagesLoop server
            (resolveRange periodResp.dateRangeStart periodResp.dateRangeEnd apiPeriod now).startDate
            (resolveRange periodResp.dateRangeStart periodResp.dateRangeEnd apiPeriod now).endDate
            1 1 []).2.1 with _ | _ | msg
          · simp only [hexit]
            constructor
            · intro _
              rw [loadingAfter_append]
              rfl
            · intro h
              simp at h
          · simp only [hexit]
            constructor
            · intro h
              exact absurd rfl h
            · intro _
              rw [loadingAfter_append, fetchPagesLoop_loadingAfter]
              rfl
          · simp only [hexit]
            constructor
            · intro _
              rw [loadingAfter_append]
              rfl
            · intro h
              simp at h
        · rw [if_pos (by simp [statusOk] at hok ⊢; omega)]
          constructor
          · intro _
            simp [loadingAfter]
          · intro h
            simp at h

/-- Witness for C2 amended: with no API base URL configured, loading
ends false even when it started true. -/
theorem fetchAll_clears_loading_except_on_401_witness :
    loadingAfter (fetchAll none "monthly" sampleDT periodOkNoRange
        (fun _ => okPage [] 1)).1 true = false :=
  (fetchAll_clears_loading_except_on_401 none "monthly" sampleDT periodOkNoRange
    (fun _ => okPage [] 1) true).1 (by decide)

/-! ## Claim C3 -/

/-- C3: a 401 on any remote call — period fetch, expenses page fetch,
create/update save, delete — produces exactly the alert and one login
redirect and nothing else: the response body is never read, no state is
derived from it (the mutation handlers only reset `saving`), and no
error is thrown (the outcome is `unauthorized`, never a caught
throw). -/
theorem any_401_redirects_once_no_processing :
    (∀ (base apiPeriod : String) (now : DateTime) (pr : PeriodResponse)
        (server : Nat → PageResponse), pr.status = 401 →
      (fetchAll (some base) apiPeriod now pr server).1 =
        [Effect.setLoading true, Effect.request (ApiRequest.periodReq apiPeriod),
         Effect.alertMsg "Unauthorized: Please login again.",
         Effect.redirect "/admin/login"] ∧
      (fetchAll (some base) apiPeriod now pr server).2 = FetchOutcome.unauthorized ∧
      countRedirects (fetchAll (some base) apiPeriod now pr server).1 = 1 ∧
      countReadBody (fetchAll (some base) apiPeriod now pr server).1 = 0) ∧
    (∀ (server : Nat → PageResponse) (rs re : DateTime) (k : Nat) (pages : Int)
        (acc : List Expense), (k : Int) ≤ pages → k ≤ 50 → (server k).status = 401 →
      fetchPagesLoop server rs re k pages acc =
        ([Effect.request (ApiRequest.expensesPage rs re k 100),
          Effect.alertMsg "Unauthorized: Please login again.",
          Effect.redirect "/admin/login"], LoopExit.unauthorized, acc)) ∧
    (∀ (base : String) (resp : MutResponse) (p : SavePayload) (s : UIState),
      resp.status = 401 →
      (performSaveExpense (some base) resp p s).2.1 =
        [Effect.request (if p.isEdit then ApiRequest.updateReq p.id p
           else ApiRequest.createReq p),
         Effect.alertMsg "Unauthorized: Please login again.",
         Effect.redirect "/admin/login"] ∧
      (performSaveExpense (some base) resp p s).2.2 = MutOutcome.unauthorized ∧
      (performSaveExpense (some base) resp p s).1 = { s with saving := false } ∧
      countReadBody (performSaveExpense (some base) resp p s).2.1 = 0) ∧
    (∀ (base : String) (resp : MutResponse) (e : Expense) (s : UIState) (i : String),
      jsOrString e._id e.id = some i → i ≠ "" → resp.status = 401 →
      (performDeleteExpense (some base) resp e s).2.1 =
        [Effect.request (ApiRequest.deleteReq i),
         Effect.alertMsg "Unauthorized: Please login again.",
         Effect.redirect "/admin/login"] ∧
      (performDeleteExpense (some base) resp e s).2.2 = MutOutcome.unauthorized ∧
      (performDeleteExpense (some base) resp e s).1 = { s with saving := false } ∧
      countReadBody (performDeleteExpense (some base) resp e s).2.1 = 0) := by
  refine ⟨?_, ?_, ?_, ?_⟩
  · intro base apiPeriod now pr server h401
    simp only [fetchAll]
    rw [if_pos h401]
    refine ⟨rfl, rfl, ?_, ?_⟩
    · simp [countRedirects]
    · simp [countReadBody]
  · intro server rs re k pages acc h1 h2 h401
    exact fetchPagesLoop_unauthorized_step server rs re k pages acc ⟨h1, h2⟩ h401
  · intro base resp p s h401
    simp only [performSaveExpense]
    rw [if_pos h401]
    refine ⟨rfl, rfl, ?_, ?_⟩
    · simp
    · simp [countReadBody]
  · intro base resp e s i hi hine h401
    simp only [performDeleteExpense]
    rw [hi]
    dsimp only
    rw [if_neg hine]
    rw [if_pos h401]
    refine ⟨rfl, rfl, ?_, ?_⟩
    · simp
    · simp [countReadBody]

/-- Witness for C3: concrete 401 responses at each call site. -/
theorem any_401_redirects_once_no_processing_witness :
    countRedirects (fetchAll (some "u") "monthly" sampleDT period401
        (fun _ => okPage [] 1)).1 = 1 ∧
    (performSaveExpense (some "u") resp401 samplePayload sampleState).2.2 =
      MutOutcome.unauthorized ∧
    (performDeleteExpense (some "u") resp401 sampleExpense sampleState).2.2 =
      MutOutcome.unauthorized := by
  have h := any_401_redirects_once_no_processing
  exact ⟨(h.1 "u" "monthly" sampleDT period401 (fun _ => okPage [] 1) rfl).2.2.1,
    (h.2.2.1 "u" resp401 samplePayload sampleState rfl).2.1,
    (h.2.2.2 "u" resp401 sampleExpense sampleState "abc123" rfl (by decide) rfl).2.1⟩

/-! ## Claim C5 -/

/-- C5 counterexample: when the server supplies a (valid-date) range
whose start is after its end and not day-aligned, the loader uses it
as-is for the expenses query and stores it — so the resolved range is
neither ordered nor normalized, contrary to the claim. -/
theorem resolved_range_not_always_normalized :
    Effect.setExpensesDateRange ⟨⟨10, 5, 17⟩, ⟨3, 2, 0⟩⟩ ∈
      (fetchAll (some "u") "monthly" sampleDT
        ⟨200, "", some ⟨10, 5, 17⟩, some ⟨3, 2, 0⟩, some []⟩
        (fun _ => okPage [] 1)).1 ∧
    ¬ dtLe (⟨10, 5, 17⟩ : DateTime) ⟨3, 2, 0⟩ ∧
    (⟨10, 5, 17⟩ : DateTime).msOfDay ≠ 0 := by
  refine ⟨?_, by decide, by decide⟩
  simp [fetchAll, resolveRange, statusOk, fetchPagesLoop, okPage, pagesOf]

/-- C5 amended: the locally computed fallback range always has its
start at or before its end, with the start at 00:00:00.000 on the
first relevant day and the end at 23:59:59.999; each component of the
resolved range is the server's value, used as-is, when the server
supplies a valid one, and exactly the fallback component otherwise. -/
theorem period_range_fallback_ordered_normalized
    (period : String) (now : DateTime) (hday : 1 ≤ now.day) :
    dtLe (getPeriodDateRange period now).startDate
      (getPeriodDateRange period now).endDate ∧
    (getPeriodDateRange period now).startDate.msOfDay = 0 ∧
    (getPeriodDateRange period now).startDate.day = 1 ∧
    (getPeriodDateRange period now).endDate.msOfDay = 86399999 ∧
    (∀ (ss se : Option DateTime),
      (resolveRange ss se period now).startDate =
        ss.getD (getPeriodDateRange period now).startDate ∧
      (resolveRange ss se period now).endDate =
        se.getD (getPeriodDateRange period now).endDate) := by
  refine ⟨?_, ?_, ?_, ?_, fun ss se => ⟨rfl, rfl⟩⟩
  · by_cases hm : period = "monthly"
    · simp [getPeriodDateRange, hm, dtLe]
      omega
    · by_cases h6 : period = "6months"
      · simp [getPeriodDateRange, hm, h6, dtLe]
      · simp [getPeriodDateRange, hm, h6, dtLe]
        omega
  · by_cases hm : period = "monthly" <;> by_cases h6 : period = "6months" <;>
      simp [getPeriodDateRange, hm, h6]
  · by_cases hm : period = "monthly" <;> by_cases h6 : period = "6months" <;>
      simp [getPeriodDateRange, hm, h6]
  · by_cases hm : period = "monthly" <;> by_cases h6 : period = "6months" <;>
      simp [getPeriodDateRange, hm, h6]

/-- Witness for C5 amended: the monthly fallback at the sample date. -/
theorem period_range_fallback_ordered_normalized_witness :
    dtLe (getPeriodDateRange "monthly" sampleDT).startDate
      (getPeriodDateRange "monthly" sampleDT).endDate ∧
    (getPeriodDateRange "monthly" sampleDT).startDate.msOfDay = 0 :=
  ⟨(period_range_fallback_ordered_normalized "monthly" sampleDT (by decide)).1,
   (period_range_fallback_ordered_normalized "monthly" sampleDT (by decide)).2.1⟩

/-! ## Claim C8 -/

/-- C8 counterexample: with no API base URL configured,
`performSaveExpense` produces an empty effect trace — in particular no
console log — so the condition is not logged there; it only sets the
inline form error. -/
theorem no_api_save_logs_nothing :
    (performSaveExpense none respOkMut samplePayload sampleState).2.1 = [] ∧
    countConsole (performSaveExpense none respOkMut samplePayload sampleState).2.1 = 0 ∧
    (performSaveExpense none respOkMut samplePayload sampleState).1.formError =
      "API base URL is not configured." :=
  ⟨rfl, rfl, rfl⟩

/-- C8 amended: with no API base URL configured, no operation issues a
network request and none throws; `fetchAll` logs a console warning and
clears loading, while save surfaces only an inline form error and
delete only an error toast (neither logs). -/
theorem no_api_base_disables_network
    (apiPeriod : String) (now : DateTime) (pr : PeriodResponse)
    (server : Nat → PageResponse) (resp : MutResponse) (p : SavePayload)
    (e : Expense) (s : UIState) (i : String)
    (hi : jsOrString e._id e.id = some i) (hine : i ≠ "") :
    requestsOf (fetchAll none apiPeriod now pr server).1 = [] ∧
    (fetchAll none apiPeriod now pr server).1 =
      [Effect.consoleWarn "API base URL is not set. Cannot fetch money manager data.",
       Effect.setLoading false] ∧
    (fetchAll none apiPeriod now pr server).2 = FetchOutcome.noApi ∧
    (performSaveExpense none resp p s).2.1 = [] ∧
    (performSaveExpense none resp p s).1 =
      { s with formError := "API base URL is not configured." } ∧
    (performSaveExpense none resp p s).2.2 = MutOutcome.noApi ∧
    (performDeleteExpense none resp e s).2.1 =
      [Effect.toast "API base URL is not configured." "error"] ∧
    (performDeleteExpense none resp e s).1 = s ∧
    (performDeleteExpense none resp e s).2.2 = MutOutcome.noApi := by
  have hdel : performDeleteExpense none resp e s =
      (s, [Effect.toast "API base URL is not configured." "error"], MutOutcome.noApi) := by
    simp only [performDeleteExpense]
    rw [hi]
    dsimp only
    rw [if_neg hine]
  exact ⟨rfl, rfl, rfl, rfl, rfl, rfl, by rw [hdel], by rw [hdel], by rw [hdel]⟩

/-- Witness for C8 amended: the sample expense has a non-empty
identifier, so `performDeleteExpense` with no API base URL only shows
the error toast. -/
theorem no_api_base_disables_network_witness :
    (performDeleteExpense none respOkMut sampleExpense sampleState).2.1 =
      [Effect.toast "API base URL is not configured." "error"] ∧
    requestsOf (fetchAll none "monthly" sampleDT periodOkNoRange
      (fun _ => okPage [] 1)).1 = [] := by
  have h := no_api_base_disables_network "monthly" sampleDT periodOkNoRange
    (fun _ => okPage [] 1) respOkMut samplePayload sampleExpense sampleState
    "abc123" rfl (by decide)
  exact ⟨h.2.2.2.2.2.2.1, h.1⟩

/-! ## Claim C6 -/

/-- C6: confirming a staged delete whose record has a (truthy)
identifier, with a successful response, issues exactly one DELETE
request targeting that identifier, followed by exactly one full
reload. -/
theorem confirmed_delete_one_request_one_reload
    (base : String) (saveResp delResp : MutResponse) (s : UIState)
    (cd : ConfirmDialog) (e : Expense) (i : String)
    (hcd : s.confirmDialog = some cd) (hty : cd.type = "delete")
    (hpl : cd.payload = PendingPayload.del e) (hsv : s.saving = false)
    (hi : jsOrString e._id e.id = some i) (hine : i ≠ "")
    (hok : statusOk delResp.status = true) :
    (confirmClick (some base) saveResp delResp s).2.1 =
      [Effect.request (ApiRequest.deleteReq i), Effect.reload,
       Effect.toast "Expense deleted successfully." "success"] ∧
    requestsOf (confirmClick (some base) saveResp delResp s).2.1 =
      [ApiRequest.deleteReq i] ∧
    countReloads (confirmClick (some base) saveResp delResp s).2.1 = 1 ∧
    (confirmClick (some base) saveResp delResp s).2.2 = MutOutcome.ok := by
  have h401 : ¬ delResp.status = 401 := by
    simp [statusOk] at hok
    omega
  have hperf : performDeleteExpense (some base) delResp e s =
      ({ s with saving := false, confirmDialog := none },
       [Effect.request (ApiRequest.deleteReq i), Effect.reload,
        Effect.toast "Expense deleted successfully." "success"], MutOutcome.ok) := by
    simp only [performDeleteExpense]
    rw [hi]
    dsimp only
    rw [if_neg hine, if_neg h401, if_neg (by simp [hok])]
  have hclick : confirmClick (some base) saveResp delResp s =
      performDeleteExpense (some base) delResp e s := by
    simp only [confirmClick]
    rw [hcd]
    dsimp only
    rw [if_neg (by simp [hsv] : ¬ s.saving = true)]
    rw [hty]
    rw [if_neg (by decide : ¬ ("delete" = "update")), if_pos rfl]
    rw [hpl]
  rw [hclick, hperf]
  exact ⟨rfl, rfl, rfl, rfl⟩

/-- Witness for C6: confirming the staged delete of `sampleExpense`. -/
theorem confirmed_delete_one_request_one_reload_witness :
    requestsOf (confirmClick (some "u") respOkMut respOkMut stagedDeleteState).2.1 =
      [ApiRequest.deleteReq "abc123"] ∧
    countReloads (confirmClick (some "u") respOkMut respOkMut stagedDeleteState).2.1 = 1 := by
  have h := confirmed_delete_one_request_one_reload "u" respOkMut respOkMut
    stagedDeleteState ⟨"delete", PendingPayload.del sampleExpense⟩ sampleExpense
    "abc123" rfl rfl rfl rfl rfl (by decide) (by decide)
  exact ⟨h.2.1, h.2.2.1⟩

/-! ## Claim C7 -/

/-- C7: a form whose trimmed title is empty, whose date is missing, or
whose amount does not parse to a strictly positive number (non-numeric
input parses to 0) is rejected entirely locally: an inline form error
is set and no effect — in particular no network request — is
produced. -/
theorem invalid_form_blocks_locally
    (api : Option String) (resp : MutResponse) (s : UIState)
    (h : jsTrim s.expenseForm.title = "" ∨ s.expenseForm.expenseDate = "" ∨
         toNumber s.expenseForm.amount ≤ 0) :
    (handleSaveExpense api resp s).2.1 = [] ∧
    requestsOf (handleSaveExpense api resp s).2.1 = [] ∧
    (handleSaveExpense api resp s).2.2 = MutOutcome.blocked ∧
    (handleSaveExpense api resp s).1.formError ≠ "" := by
  simp only [handleSaveExpense]
  by_cases h1 : jsTrim s.expenseForm.title = ""
  · rw [if_pos h1]
    exact ⟨rfl, rfl, rfl, by simp⟩
  · rw [if_neg h1]
    by_cases h2 : s.expenseForm.expenseDate = ""
    · rw [if_pos h2]
      exact ⟨rfl, rfl, rfl, by simp⟩
    · rw [if_neg h2]
      have h3 : toNumber s.expenseForm.amount ≤ 0 := by tauto
      rw [if_pos h3]
      exact ⟨rfl, rfl, rfl, by simp⟩

/-- Witness for C7: submitting with an empty title produces no effects
and sets the title error. -/
theorem invalid_form_blocks_locally_witness :
    (handleSaveExpense (some "u") respOkMut emptyTitleState).2.1 = [] ∧
    (handleSaveExpense (some "u") respOkMut emptyTitleState).1.formError ≠ "" := by
  have h := invalid_form_blocks_locally (some "u") respOkMut emptyTitleState
    (Or.inl (by decide))
  exact ⟨h.1, h.2.2.2⟩

/-! ## Request-shape lemmas for the step system -/

theorem mem_requestsOf (effs : List Effect) (r : ApiRequest) :
    r ∈ requestsOf effs ↔ Effect.request r ∈ effs := by
  simp only [requestsOf, List.mem_filterMap]
  constructor
  · rintro ⟨e, he, hm⟩
    cases e with
    | request a =>
        simp only [Option.some.injEq] at hm
        subst hm
        exact he
    | readBody => simp at hm
    | alertMsg m => simp at hm
    | redirect u => simp at hm
    | consoleWarn m => simp at hm
    | consoleError m => simp at hm
    | setLoading b => simp at hm
    | setPeriodGroups g => simp at hm
    | setExpenses l => simp at hm
    | setExpensesDateRange rg => simp at hm
    | toast m ty => simp at hm
    | reload => simp at hm
  · intro h
    exact ⟨Effect.request r, h, rfl⟩

/-- Every request the pagination loop issues is a GET. -/
theorem fetchPagesLoop_requests_get (server : Nat → PageResponse) (rs re : DateTime)
    (page : Nat) (pages : Int) (acc : List Expense) :
    ∀ r : ApiRequest, Effect.request r ∈ (fetchPagesLoop server rs re page pages acc).1 →
      r.method = "GET" := by
  intro r hmem
  have hshape := fetchPagesLoop_effect_cases server rs re (51 - page) page pages acc
    (by omega) _ hmem
  rcases hshape with ⟨p, hp⟩ | h | h | h
  · injection hp with h2
    subst h2
    rfl
  · simp at h
  · simp at h
  · simp at h

/-- Every request `fetchAll` issues is a GET (the period request or a
page request). -/
theorem fetchAll_requests_get (apiBaseUrl : Option String) (ap : String)
    (now : DateTime) (pr : PeriodResponse) (srv : Nat → PageResponse) :
    ∀ r ∈ requestsOf (fetchAll apiBaseUrl ap now pr srv).1, r.method = "GET" := by
  intro r hr
  rw [mem_requestsOf] at hr
  match apiBaseUrl with
  | none => simp [fetchAll] at hr
  | some base =>
      simp only [fetchAll] at hr
      by_cases h401 : pr.status = 401
      · rw [if_pos h401] at hr
        simp at hr
        subst hr
        rfl
      · rw [if_neg h401] at hr
        by_cases hok : statusOk pr.status
        · rw [if_neg (by simp [hok])] at hr
          rcases hexit : (fetchPagesLoop srv
            (resolveRange pr.dateRangeStart pr.dateRangeEnd ap now).startDate
            (resolveRange pr.dateRangeStart pr.dateRangeEnd ap now).endDate
            1 1 []).2.1 with _ | _ | msg <;>
            simp only [hexit] at hr <;>
            simp [List.append_assoc] at hr <;>
            rcases hr with hr | hr
          · subst hr
            rfl
          · exact fetchPagesLoop_requests_get srv _ _ 1 1 [] r hr
          · subst hr
            rfl
          · exact fetchPagesLoop_requests_get srv _ _ 1 1 [] r hr
          · subst hr
            rfl
          · exact fetchPagesLoop_requests_get srv _ _ 1 1 [] r hr
        · rw [if_pos (by simp [statusOk] at hok ⊢; omega)] at hr
          simp at hr
          subst hr
          rfl

/-- `performSaveExpense` issues no request or exactly its one payload
request (PUT when `isEdit`, POST otherwise). -/
theorem performSaveExpense_requests (apiBaseUrl : Option String) (resp : MutResponse)
    (p : SavePayload) (s : UIState) :
    requestsOf (performSaveExpense apiBaseUrl resp p s).2.1 = [] ∨
    requestsOf (performSaveExpense apiBaseUrl resp p s).2.1 =
      [if p.isEdit then ApiRequest.updateReq p.id p else ApiRequest.createReq p] := by
  match apiBaseUrl with
  | none => exact Or.inl rfl
  | some base =>
      simp only [performSaveExpense]
      by_cases h1 : resp.status = 401
      · rw [if_pos h1]
        right
        simp [requestsOf]
      · rw [if_neg h1]
        by_cases h2 : statusOk resp.status
        · rw [if_neg (by simp [h2])]
          right
          simp [requestsOf]
        · rw [if_pos (by simp [h2])]
          right
          simp [requestsOf]

/-- `performDeleteExpense` issues no request or exactly one DELETE of
the record's resolved identifier. -/
theorem performDeleteExpense_requests (apiBaseUrl : Option String) (resp : MutResponse)
    (e : Expense) (s : UIState) :
    requestsOf (performDeleteExpense apiBaseUrl resp e s).2.1 = [] ∨
    ∃ i, jsOrString e._id e.id = some i ∧
      requestsOf (performDeleteExpense apiBaseUrl resp e s).2.1 =
        [ApiRequest.deleteReq i] := by
  rcases hio : jsOrString e._id e.id with _ | i
  · left
    simp only [performDeleteExpense]
    rw [hio]
    rfl
  · simp only [performDeleteExpense]
    rw [hio]
    dsimp only
    by_cases hie : i = ""
    · rw [if_pos hie]
      exact Or.inl rfl
    · rw [if_neg hie]
      match apiBaseUrl with
      | none => exact Or.inl rfl
      | some base =>
          by_cases h1 : resp.status = 401
          · rw [if_pos h1]
            exact Or.inr ⟨i, rfl, by simp [requestsOf]⟩
          · rw [if_neg h1]
            by_cases h2 : statusOk resp.status
            · rw [if_neg (by simp [h2])]
              exact Or.inr ⟨i, rfl, by simp [requestsOf]⟩
            · rw [if_pos (by simp [h2])]
              exact Or.inr ⟨i, rfl, by simp [requestsOf]⟩

/-- `handleSaveExpense` issues no request or exactly one POST (a
create): the edit path stages a confirmation instead of calling the
network. -/
theorem handleSaveExpense_requests (apiBaseUrl : Option String) (resp : MutResponse)
    (s : UIState) :
    requestsOf (handleSaveExpense apiBaseUrl resp s).2.1 = [] ∨
    ∃ p : SavePayload, p.isEdit = false ∧
      requestsOf (handleSaveExpense apiBaseUrl resp s).2.1 =
        [ApiRequest.createReq p] := by
  simp only [handleSaveExpense]
  by_cases h1 : jsTrim s.expenseForm.title = ""
  · rw [if_pos h1]
    exact Or.inl rfl
  · rw [if_neg h1]
    by_cases h2 : s.expenseForm.expenseDate = ""
    · rw [if_pos h2]
      exact Or.inl rfl
    · rw [if_neg h2]
      by_cases h3 : toNumber s.expenseForm.amount ≤ 0
      · rw [if_pos h3]
        exact Or.inl rfl
      · rw [if_neg h3]
        by_cases hE : isTruthyStr (jsOrString (s.editingExpense.bind (fun e => e._id))
            (s.editingExpense.bind (fun e => e.id))) = true
        · rw [if_pos hE]
          exact Or.inl rfl
        · rw [if_neg hE]
          have hEf : isTruthyStr (jsOrString (s.editingExpense.bind (fun e => e._id))
              (s.editingExpense.bind (fun e => e.id))) = false := by
            revert hE
            cases isTruthyStr (jsOrString (s.editingExpense.bind (fun e => e._id))
              (s.editingExpense.bind (fun e => e.id))) <;> simp
          rcases performSaveExpense_requests apiBaseUrl resp
            ⟨isTruthyStr (jsOrString (s.editingExpense.bind (fun e => e._id))
               (s.editingExpense.bind (fun e => e.id))),
             jsOrString (s.editingExpense.bind (fun e => e._id))
               (s.editingExpense.bind (fun e => e.id)),
             jsTrim s.expenseForm.title, jsTrim s.expenseForm.description,
             toNumber s.expenseForm.amount, s.expenseForm.expenseDate⟩
            { s with formError := "" } with hq | hq
          · exact Or.inl hq
          · refine Or.inr ⟨⟨isTruthyStr (jsOrString (s.editingExpense.bind (fun e => e._id))
               (s.editingExpense.bind (fun e => e.id))),
             jsOrString (s.editingExpense.bind (fun e => e._id))
               (s.editingExpense.bind (fun e => e.id)),
             jsTrim s.expenseForm.title, jsTrim s.expenseForm.description,
             toNumber s.expenseForm.amount, s.expenseForm.expenseDate⟩, hEf, ?_⟩
            rw [hq]
            simp [hEf]

/-! ## Claim C4 -/

/-- C4: across every UI event, a PUT is only ever issued by confirming
a staged update pending-action and carries exactly the staged payload;
a DELETE is only ever issued by confirming a staged delete
pending-action and targets the staged record's identifier; and a POST
only arises directly from a form submission (which never stages). -/
theorem put_delete_only_from_confirm
    (apiBaseUrl : Option String) (ev : UIEvent) (s : UIState) (hwf : StateWF s) :
    ∀ r ∈ requestsOf (step apiBaseUrl ev s).2,
      (r.method = "PUT" →
        ∃ saveResp delResp cd p, ev = UIEvent.confirmClick saveResp delResp ∧
          s.confirmDialog = some cd ∧ cd.payload = PendingPayload.save p ∧
          r = ApiRequest.updateReq p.id p) ∧
      (r.method = "DELETE" →
        ∃ saveResp delResp cd e i, ev = UIEvent.confirmClick saveResp delResp ∧
          s.confirmDialog = some cd ∧ cd.payload = PendingPayload.del e ∧
          jsOrString e._id e.id = some i ∧ r = ApiRequest.deleteReq i) ∧
      (r.method = "POST" →
        ∃ resp, ev = UIEvent.submitForm resp) := by
  intro r hr
  cases ev with
  | load ap now prr server =>
      have hg := fetchAll_requests_get apiBaseUrl ap now prr server r hr
      refine ⟨fun hm => ?_, fun hm => ?_, fun hm => ?_⟩ <;> rw [hg] at hm <;> simp at hm
  | submitForm resp =>
      simp only [step] at hr
      rcases handleSaveExpense_requests apiBaseUrl resp s with hq | ⟨p, hpe, hq⟩
      · rw [hq] at hr
        simp at hr
      · rw [hq] at hr
        simp only [List.mem_singleton] at hr
        subst hr
        exact ⟨fun hm => by simp [ApiRequest.method] at hm,
               fun hm => by simp [ApiRequest.method] at hm,
               fun _ => ⟨resp, rfl⟩⟩
  | confirmClick saveResp delResp =>
      simp only [step] at hr
      rcases hcd : s.confirmDialog with _ | cd
      · simp only [confirmClick, hcd] at hr
        simp [requestsOf] at hr
      · simp only [confirmClick, hcd] at hr
        by_cases hsv : s.saving = true
        · rw [if_pos hsv] at hr
          simp [requestsOf] at hr
        · rw [if_neg hsv] at hr
          by_cases hty : cd.type = "update"
          · rw [if_pos hty] at hr
            rcases hpl : cd.payload with p | e
            · rw [hpl] at hr
              dsimp only at hr
              have hEdit := ((hwf cd hcd).1 p hpl).2
              rcases performSaveExpense_requests apiBaseUrl saveResp p s with hq | hq
              · rw [hq] at hr
                simp at hr
              · rw [hq] at hr
                simp only [List.mem_singleton] at hr
                simp only [hEdit, if_true] at hr
                subst hr
                exact ⟨fun _ => ⟨saveResp, delResp, cd, p, rfl, rfl, hpl, rfl⟩,
                       fun hm => by simp [ApiRequest.method] at hm,
                       fun hm => by simp [ApiRequest.method] at hm⟩
            · rw [hpl] at hr
              dsimp only at hr
              simp [requestsOf] at hr
          · rw [if_neg hty] at hr
            by_cases htd : cd.type = "delete"
            · rw [if_pos htd] at hr
              rcases hpl : cd.payload with p | e
              · rw [hpl] at hr
                dsimp only at hr
                simp [requestsOf] at hr
              · rw [hpl] at hr
                dsimp only at hr
                rcases performDeleteExpense_requests apiBaseUrl delResp e s with
                  hq | ⟨i, hi, hq⟩
                · rw [hq] at hr
                  simp at hr
                · rw [hq] at hr
                  simp only [List.mem_singleton] at hr
                  subst hr
                  exact ⟨fun hm => by simp [ApiRequest.method] at hm,
                         fun _ => ⟨saveResp, delResp, cd, e, i, rfl, rfl, hpl, hi, rfl⟩,
                         fun hm => by simp [ApiRequest.method] at hm⟩
            · rw [if_neg htd] at hr
              simp [requestsOf] at hr
  | cancelClick =>
      simp only [step] at hr
      by_cases hsv : s.saving = true
      · rw [if_pos hsv] at hr
        simp [requestsOf] at hr
      · rw [if_neg hsv] at hr
        simp [requestsOf] at hr
  | deleteClick exp =>
      simp only [step] at hr
      rcases exp with _ | e2 <;> simp [handleDeleteExpense, requestsOf] at hr
  | openCreate form =>
      simp only [step] at hr
      simp [requestsOf] at hr
  | openEdit exp form =>
      simp only [step] at hr
      simp [requestsOf] at hr
  | closeClick =>
      simp only [step] at hr
      simp [requestsOf] at hr

/-- Witness for C4: confirming the staged delete of `sampleExpense`
issues the DELETE, and the theorem traces it back to the staged
payload. -/
theorem put_delete_only_from_confirm_witness :
    ∃ saveResp delResp cd e i,
      (UIEvent.confirmClick respOkMut respOkMut : UIEvent) =
        UIEvent.confirmClick saveResp delResp ∧
      stagedDeleteState.confirmDialog = some cd ∧
      cd.payload = PendingPayload.del e ∧
      jsOrString e._id e.id = some i ∧
      ApiRequest.deleteReq "abc123" = ApiRequest.deleteReq i := by
  have hwf : StateWF stagedDeleteState := by
    intro cd hcd
    have hc : cd = ⟨"delete", PendingPayload.del sampleExpense⟩ := by
      simp only [stagedDeleteState, sampleState] at hcd
      exact (Option.some.injEq _ _ ▸ hcd).symm
    subst hc
    exact ⟨fun p hp => by simp at hp, fun e he => rfl⟩
  have hmem : ApiRequest.deleteReq "abc123" ∈
      requestsOf (step (some "u") (UIEvent.confirmClick respOkMut respOkMut)
        stagedDeleteState).2 := by
    decide
  exact (put_delete_only_from_confirm (some "u")
    (UIEvent.confirmClick respOkMut respOkMut) stagedDeleteState hwf
    (ApiRequest.deleteReq "abc123") hmem).2.1 rfl

/-! ## Well-formedness is invariant -/

/-- Well-formedness only looks at the staged dialog. -/
theorem stateWF_of_dialog_eq (s t : UIState)
    (h : t.confirmDialog = s.confirmDialog) (hwf : StateWF s) : StateWF t :=
  fun cd hcd => hwf cd (h ▸ hcd)

/-- A state with no staged dialog is well-formed. -/
theorem stateWF_of_none (s : UIState) (h : s.confirmDialog = none) : StateWF s := by
  intro cd hcd
  rw [h] at hcd
  cases hcd

/-- `performSaveExpense` either keeps the staged dialog or clears
it. -/
theorem performSaveExpense_dialog (apiBaseUrl : Option String) (resp : MutResponse)
    (p : SavePayload) (s : UIState) :
    (performSaveExpense apiBaseUrl resp p s).1.confirmDialog = s.confirmDialog ∨
    (performSaveExpense apiBaseUrl resp p s).1.confirmDialog = none := by
  match apiBaseUrl with
  | none => exact Or.inl rfl
  | some base =>
      simp only [performSaveExpense]
      by_cases h1 : resp.status = 401
      · rw [if_pos h1]
        exact Or.inl rfl
      · rw [if_neg h1]
        by_cases h2 : statusOk resp.status
        · rw [if_neg (by simp [h2])]
          right
          simp only [closeModalWith]
          by_cases h3 : s.saving = true
          · rw [if_pos h3]
          · rw [if_neg h3]
        · rw [if_pos (by simp [h2])]
          exact Or.inl rfl

/-- `performDeleteExpense` either keeps the staged dialog or clears
it. -/
theorem performDeleteExpense_dialog (apiBaseUrl : Option String) (resp : MutResponse)
    (e : Expense) (s : UIState) :
    (performDeleteExpense apiBaseUrl resp e s).1.confirmDialog = s.confirmDialog ∨
    (performDeleteExpense apiBaseUrl resp e s).1.confirmDialog = none := by
  rcases hio : jsOrString e._id e.id with _ | i
  · left
    simp only [performDeleteExpense]
    rw [hio]
  · simp only [performDeleteExpense]
    rw [hio]
    dsimp only
    by_cases hie : i = ""
    · rw [if_pos hie]
      exact Or.inl rfl
    · rw [if_neg hie]
      match apiBaseUrl with
      | none => exact Or.inl rfl
      | some base =>
          by_cases h1 : resp.status = 401
          · rw [if_pos h1]
            exact Or.inl rfl
          · rw [if_neg h1]
            by_cases h2 : statusOk resp.status
            · rw [if_neg (by simp [h2])]
              exact Or.inr rfl
            · rw [if_pos (by simp [h2])]
              exact Or.inl rfl

/-- Every step of the page preserves dialog well-formedness: the only
writers of the staged dialog are the two staging handlers (which write
matching tag/payload pairs, the update one with `isEdit` known true),
the success paths (which clear it), and the cancel button. -/
theorem stateWF_preserved (apiBaseUrl : Option String) (ev : UIEvent) (s : UIState)
    (hwf : StateWF s) : StateWF (step apiBaseUrl ev s).1 := by
  cases ev with
  | load ap now prr server => exact hwf
  | submitForm resp =>
      simp only [step, handleSaveExpense]
      by_cases h1 : jsTrim s.expenseForm.title = ""
      · rw [if_pos h1]
        exact stateWF_of_dialog_eq s _ rfl hwf
      · rw [if_neg h1]
        by_cases h2 : s.expenseForm.expenseDate = ""
        · rw [if_pos h2]
          exact stateWF_of_dialog_eq s _ rfl hwf
        · rw [if_neg h2]
          by_cases h3 : toNumber s.expenseForm.amount ≤ 0
          · rw [if_pos h3]
            exact stateWF_of_dialog_eq s _ rfl hwf
          · rw [if_neg h3]
            by_cases hE : isTruthyStr (jsOrString (s.editingExpense.bind (fun e => e._id))
                (s.editingExpense.bind (fun e => e.id))) = true
            · rw [if_pos hE]
              intro cd hcd
              simp only [Option.some.injEq] at hcd
              subst hcd
              refine ⟨fun p hp => ?_, fun e he => by cases he⟩
              cases hp
              exact ⟨rfl, hE⟩
            · rw [if_neg hE]
              rcases performSaveExpense_dialog apiBaseUrl resp
                ⟨isTruthyStr (jsOrString (s.editingExpense.bind (fun e => e._id))
                   (s.editingExpense.bind (fun e => e.id))),
                 jsOrString (s.editingExpense.bind (fun e => e._id))
                   (s.editingExpense.bind (fun e => e.id)),
                 jsTrim s.expenseForm.title, jsTrim s.expenseForm.description,
                 toNumber s.expenseForm.amount, s.expenseForm.expenseDate⟩
                { s with formError := "" } with hd | hd
              · exact stateWF_of_dialog_eq s _ hd hwf
              · exact stateWF_of_none _ hd
  | confirmClick saveResp delResp =>
      simp only [step, confirmClick]
      rcases hcd : s.confirmDialog with _ | cd
      · exact stateWF_of_dialog_eq s _ (by rw [hcd]) hwf
      · dsimp only
        by_cases hsv : s.saving = true
        · rw [if_pos hsv]
          exact stateWF_of_dialog_eq s _ (by rw [hcd]) hwf
        · rw [if_neg hsv]
          by_cases hty : cd.type = "update"
          · rw [if_pos hty]
            rcases hpl : cd.payload with p | e
            · rcases performSaveExpense_dialog apiBaseUrl saveResp p s with hd | hd
              · exact stateWF_of_dialog_eq s _ hd hwf
              · exact stateWF_of_none _ hd
            · exact stateWF_of_dialog_eq s _ (by rw [hcd]) hwf
          · rw [if_neg hty]
            by_cases htd : cd.type = "delete"
            · rw [if_pos htd]
              rcases hpl : cd.payload with p | e
              · exact stateWF_of_dialog_eq s _ (by rw [hcd]) hwf
              · rcases performDeleteExpense_dialog apiBaseUrl delResp e s with hd | hd
                · exact stateWF_of_dialog_eq s _ hd hwf
                · exact stateWF_of_none _ hd
            · rw [if_neg htd]
              exact stateWF_of_dialog_eq s _ (by rw [hcd]) hwf
  | cancelClick =>
      simp only [step]
      by_cases hsv : s.saving = true
      · rw [if_pos hsv]
        exact hwf
      · rw [if_neg hsv]
        exact stateWF_of_none _ rfl
  | deleteClick exp =>
      simp only [step, handleDeleteExpense]
      rcases exp with _ | e2
      · exact hwf
      · intro cd hcd
        have hc : cd = ⟨"delete", PendingPayload.del e2⟩ := by
          simpa using hcd.symm
        subst hc
        refine ⟨fun p hp => ?_, fun e he => rfl⟩
        cases hp
  | openCreate form => exact stateWF_of_dialog_eq s _ rfl hwf
  | openEdit exp form => exact stateWF_of_dialog_eq s _ rfl hwf
  | closeClick =>
      simp only [step, closeModal, closeModalWith]
      by_cases hsv : s.saving = true
      · rw [if_pos hsv]
        exact hwf
      · rw [if_neg hsv]
        exact stateWF_of_dialog_eq s _ rfl hwf
